import Mathlib

/-!
Verification of the indicator + composite signal scoring engine of the
trading_bot_mvp repository.

The embedded code comes from two Python sources:
* `attached_assets/real_technical_analysis_1751004189354.py`
  (class `TechnicalAnalyzer`): SMA, EMA, RSI, MACD, Bollinger Bands,
  `_calculate_signal_score`, `_get_signal_label`, `_calculate_confidence`;
* `src/signal_generator.py` (class `SignalGenerator`): `_combine_signals`.

Python floats are modelled as exact rationals (ℚ); `math.sqrt` is modelled
by `Rat.sqrt`, which agrees with the real square root on perfect squares —
every property proved below exercises it only at variance 0, where both are
exactly 0.  Leading underscores of Python method names are dropped because
Lean reserves `_`-prefixed identifiers.
-/

namespace TradingBot

/-- Trend values produced by `calculate_macd` (`'BULLISH_CROSSOVER'` …). -/
inductive MacdTrend where
  | BULLISH_CROSSOVER
  | BEARISH_CROSSOVER
  | BULLISH
  | BEARISH
  | NEUTRAL
deriving DecidableEq

/-- Position values produced by `calculate_bollinger_bands`. -/
inductive BBPosition where
  | ABOVE_UPPER
  | BELOW_LOWER
  | UPPER_HALF
  | LOWER_HALF
  | MIDDLE
deriving DecidableEq

/-- The `"ABOVE"` / `"BELOW"` strings used for price-vs-moving-average
comparisons in `analyze_ticker`. -/
inductive PriceVsMA where
  | ABOVE
  | BELOW
deriving DecidableEq

/-- `calculate_sma(prices, period)`: for each `i` in
`range(period-1, len(prices))` the mean of `prices[i-period+1 : i+1]`;
`[]` when `len(prices) < period`.  The window starting at `j = i-period+1`
is `(prices.drop j).take period`.  (For the degenerate `period = 0` the
Python code would raise `ZeroDivisionError`; no property below applies
`calculate_sma` with `period = 0`.) -/
def calculate_sma (prices : List ℚ) (period : ℕ) : List ℚ :=
  if prices.length < period then []
  else
    (List.range (prices.length - period + 1)).map
      (fun j => ((prices.drop j).take period).sum / (period : ℚ))

/-- The loop `ema = price * multiplier + ema_prev * (1 - multiplier)` of
`calculate_ema`, emitting each new value. -/
def emaStep (multiplier : ℚ) : ℚ → List ℚ → List ℚ
  | _, [] => []
  | prev, p :: rest =>
      let e := p * multiplier + prev * (1 - multiplier)
      e :: emaStep multiplier e rest

/-- `calculate_ema(prices, period)`: `[]` when `len(prices) < period`,
otherwise the SMA of the first `period` prices followed by the recursive
EMA over the remaining prices, with `multiplier = 2/(period+1)`. -/
def calculate_ema (prices : List ℚ) (period : ℕ) : List ℚ :=
  if prices.length < period then []
  else
    let multiplier : ℚ := 2 / ((period : ℚ) + 1)
    let sma_first : ℚ := (prices.take period).sum / (period : ℚ)
    sma_first :: emaStep multiplier sma_first (prices.drop period)

/-- The successive price deltas `prices[i] - prices[i-1]` computed at the
top of `calculate_rsi`. -/
def rsiDeltas (prices : List ℚ) : List ℚ :=
  List.zipWith (fun a b => a - b) prices.tail prices

/-- `gains = [delta if delta > 0 else 0 for delta in deltas]`. -/
def rsiGains (prices : List ℚ) : List ℚ :=
  (rsiDeltas prices).map (fun d => if d > 0 then d else 0)

/-- `losses = [-delta if delta < 0 else 0 for delta in deltas]`. -/
def rsiLosses (prices : List ℚ) : List ℚ :=
  (rsiDeltas prices).map (fun d => if d < 0 then -d else 0)

/-- `avg_gain = sum(gains[-period:]) / period`.  For `period ≥ 1` the slice
`gains[-period:]` is the last `min period len` elements, i.e.
`drop (len - period)`. -/
def rsiAvgGain (prices : List ℚ) (period : ℕ) : ℚ :=
  ((rsiGains prices).drop ((rsiGains prices).length - period)).sum / (period : ℚ)

/-- `avg_loss = sum(losses[-period:]) / period`. -/
def rsiAvgLoss (prices : List ℚ) (period : ℕ) : ℚ :=
  ((rsiLosses prices).drop ((rsiLosses prices).length - period)).sum / (period : ℚ)

/-- `calculate_rsi(prices, period)`: 50.0 when `len(prices) < period + 1`;
100.0 / 50.0 on the `avg_loss == 0` guard; otherwise
`max(0, min(100, 100 - 100/(1+rs)))` with `rs = avg_gain/avg_loss`.
(With `period = 0` the Python code raises `ZeroDivisionError`, which its
`except` clause turns into 50.0; here `avg_gain = avg_loss = 0` by the
`x / 0 = 0` convention of ℚ, giving the same 50.0.) -/
def calculate_rsi (prices : List ℚ) (period : ℕ) : ℚ :=
  if prices.length < period + 1 then 50
  else if rsiAvgLoss prices period = 0 then
    (if rsiAvgGain prices period > 0 then 100 else 50)
  else
    max 0 (min 100
      (100 - 100 / (1 + rsiAvgGain prices period / rsiAvgLoss prices period)))

/-- The dict returned by `calculate_macd`. -/
structure MacdResult where
  macd_line : ℚ
  signal_line : ℚ
  histogram : ℚ
  trend : MacdTrend
deriving DecidableEq

/-- The zero-filled `trend: 'NEUTRAL'` dict returned on insufficient data
or on a caught exception. -/
def macdNeutral : MacdResult :=
  { macd_line := 0, signal_line := 0, histogram := 0, trend := .NEUTRAL }

/-- `l[-2]` for a list with at least two elements. -/
def secondLast (l : List ℚ) : ℚ :=
  l.getD (l.length - 2) 0

/-- The `macd_values` series of `calculate_macd`:
`ema_fast[offset:][i] - ema_slow[i]` with `offset = slow - fast`. -/
def macdValues (prices : List ℚ) (fast slow : ℕ) : List ℚ :=
  List.zipWith (fun a b => a - b)
    ((calculate_ema prices fast).drop (slow - fast)) (calculate_ema prices slow)

/-- The `signal_values` series of `calculate_macd`: the EMA of
`macd_values` with period `signal`. -/
def signalValues (prices : List ℚ) (fast slow signal : ℕ) : List ℚ :=
  calculate_ema (macdValues prices fast slow) signal

/-- `macd_line = macd_values[-1]` (with the `if macd_values else 0.0`
default). -/
def macdLine (prices : List ℚ) (fast slow : ℕ) : ℚ :=
  (macdValues prices fast slow).getLastD 0

/-- `signal_line = signal_values[-1]`. -/
def signalLine (prices : List ℚ) (fast slow signal : ℕ) : ℚ :=
  (signalValues prices fast slow signal).getLastD 0

/-- `histogram = macd_line - signal_line`. -/
def macdHistogram (prices : List ℚ) (fast slow signal : ℕ) : ℚ :=
  macdLine prices fast slow - signalLine prices fast slow signal

/-- `prev_histogram = macd_values[-2] - signal_values[-2]`. -/
def macdPrevHistogram (prices : List ℚ) (fast slow signal : ℕ) : ℚ :=
  secondLast (macdValues prices fast slow) -
    secondLast (signalValues prices fast slow signal)

/-- The trend classification of `calculate_macd`: crossover detection when
the signal series has at least two points, plain sign classification
otherwise. -/
def macdTrendOf (prices : List ℚ) (fast slow signal : ℕ) : MacdTrend :=
  if 2 ≤ (signalValues prices fast slow signal).length then
    if macdHistogram prices fast slow signal > 0 ∧
        macdPrevHistogram prices fast slow signal ≤ 0 then .BULLISH_CROSSOVER
    else if macdHistogram prices fast slow signal < 0 ∧
        macdPrevHistogram prices fast slow signal ≥ 0 then .BEARISH_CROSSOVER
    else if macdHistogram prices fast slow signal > 0 then .BULLISH
    else .BEARISH
  else if macdHistogram prices fast slow signal > 0 then .BULLISH
  else .BEARISH

/-- `calculate_macd(prices, fast, slow, signal)`.  The Python body runs
inside `try/except` and every index error is caught and turned into the
neutral dict; the one reachable index error — `ema_fast_aligned[i]` when
the aligned fast series is shorter than the slow series (possible only for
`fast > slow`) — is modelled by the explicit length guard below.  `emaStep`
keeps both series the same length whenever `fast ≤ slow`, where the guard
is vacuous. -/
def calculate_macd (prices : List ℚ) (fast slow signal : ℕ) : MacdResult :=
  if prices.length < slow + signal then macdNeutral
  else if calculate_ema prices fast = [] ∨ calculate_ema prices slow = [] then
    macdNeutral
  else if ((calculate_ema prices fast).drop (slow - fast)).length <
      (calculate_ema prices slow).length then macdNeutral
  else if signalValues prices fast slow signal = [] then
    { macd_line := macdLine prices fast slow, signal_line := 0,
      histogram := 0, trend := .NEUTRAL }
  else
    { macd_line := macdLine prices fast slow,
      signal_line := signalLine prices fast slow signal,
      histogram := macdHistogram prices fast slow signal,
      trend := macdTrendOf prices fast slow signal }

/-- The dict returned by `calculate_bollinger_bands`. -/
structure BollingerResult where
  upper_band : ℚ
  middle_band : ℚ
  lower_band : ℚ
  bandwidth : ℚ
  position : BBPosition
deriving DecidableEq

/-- The zero-filled `position: 'MIDDLE'` dict. -/
def bollingerNeutral : BollingerResult :=
  { upper_band := 0, middle_band := 0, lower_band := 0, bandwidth := 0,
    position := .MIDDLE }

/-- `calculate_bollinger_bands(prices, period, std_dev)`.  `math.sqrt` is
modelled by `Rat.sqrt` (exact on perfect squares; the properties below use
it only at variance 0).  Faithful for `period ≥ 1`; no property below uses
`period = 0`. -/
def calculate_bollinger_bands (prices : List ℚ) (period : ℕ) (std_dev : ℚ) :
    BollingerResult :=
  if prices.length < period then bollingerNeutral
  else
    let sma_values := calculate_sma prices period
    if sma_values = [] then bollingerNeutral
    else
      let middle_band := sma_values.getLastD 0
      let recent_prices := prices.drop (prices.length - period)
      let mean := recent_prices.sum / (recent_prices.length : ℚ)
      let variance :=
        (recent_prices.map (fun price => (price - mean) ^ 2)).sum
          / (recent_prices.length : ℚ)
      let std_deviation := Rat.sqrt variance
      let upper_band := middle_band + std_dev * std_deviation
      let lower_band := middle_band - std_dev * std_deviation
      let bandwidth := (upper_band - lower_band) / middle_band * 100
      let current_price := prices.getLastD 0
      let position : BBPosition :=
        if current_price > upper_band then .ABOVE_UPPER
        else if current_price < lower_band then .BELOW_LOWER
        else if current_price > middle_band then .UPPER_HALF
        else .LOWER_HALF
      { upper_band := upper_band, middle_band := middle_band,
        lower_band := lower_band, bandwidth := bandwidth, position := position }

/-- `_calculate_signal_score(rsi, macd, price_vs_sma20, price_vs_sma50,
bollinger)`: RSI, MACD, moving-average and Bollinger components summed then
clamped to [-1, 1] by `max(-1.0, min(1.0, score))`. -/
def calculate_signal_score (rsi : ℚ) (macd : MacdResult)
    (price_vs_sma20 price_vs_sma50 : PriceVsMA) (bollinger : BollingerResult) : ℚ :=
  let score : ℚ := 0
  let score : ℚ :=
    if rsi < 30 then score + 3/10
    else if rsi > 70 then score - 3/10
    else score + (50 - rsi) / 100 * (15/100)
  let score : ℚ :=
    match macd.trend with
    | .BULLISH_CROSSOVER => score + 25/100
    | .BEARISH_CROSSOVER => score - 25/100
    | .BULLISH => score + 15/100
    | .BEARISH => score - 15/100
    | .NEUTRAL => score
  let score : ℚ :=
    if price_vs_sma20 = .ABOVE ∧ price_vs_sma50 = .ABOVE then score + 25/100
    else if price_vs_sma20 = .BELOW ∧ price_vs_sma50 = .BELOW then score - 25/100
    else if price_vs_sma20 = .ABOVE then score + 1/10
    else score
  let score : ℚ :=
    match bollinger.position with
    | .BELOW_LOWER => score + 2/10
    | .ABOVE_UPPER => score - 2/10
    | .UPPER_HALF => score + 5/100
    | .LOWER_HALF => score - 5/100
    | .MIDDLE => score
  max (-1) (min 1 score)

/-- The five labels of `_get_signal_label`. -/
inductive TALabel where
  | STRONG_BUY
  | BUY
  | HOLD
  | SELL
  | STRONG_SELL
deriving DecidableEq

/-- `_get_signal_label(score)`. -/
def get_signal_label (score : ℚ) : TALabel :=
  if score ≥ 6/10 then .STRONG_BUY
  else if score ≥ 2/10 then .BUY
  else if score ≤ -(6/10) then .STRONG_SELL
  else if score ≤ -(2/10) then .SELL
  else .HOLD

/-- The substring test `'CROSSOVER' in macd_trend` over the trend values. -/
def trendHasCrossover : MacdTrend → Bool
  | .BULLISH_CROSSOVER => true
  | .BEARISH_CROSSOVER => true
  | _ => false

/-- `_calculate_confidence(rsi, macd, data_points)`: base 0.5 plus
non-negative bonuses for data volume, RSI extremity and MACD crossover,
capped by `min(1.0, confidence)`. -/
def calculate_confidence (rsi : ℚ) (macd : MacdResult) (data_points : ℕ) : ℚ :=
  let confidence : ℚ := 1/2
  let confidence : ℚ :=
    if data_points ≥ 100 then confidence + 2/10
    else if data_points ≥ 50 then confidence + 1/10
    else confidence
  let confidence : ℚ :=
    if rsi ≤ 25 ∨ rsi ≥ 75 then confidence + 2/10
    else if rsi ≤ 35 ∨ rsi ≥ 65 then confidence + 1/10
    else confidence
  let confidence : ℚ :=
    if trendHasCrossover macd.trend then confidence + 2/10 else confidence
  min 1 confidence

/-- The signal strings known to `_combine_signals`' `signal_values` dict;
any other string behaves like `UNKNOWN` through the `.get(sig, 0)`
default. -/
inductive SGSignal where
  | STRONG_BUY
  | BUY
  | NEUTRAL_BULLISH
  | HOLD
  | NEUTRAL_BEARISH
  | SELL
  | STRONG_SELL
  | UNKNOWN
deriving DecidableEq

/-- The `signal_values` lookup table of `_combine_signals`. -/
def signal_values : SGSignal → ℚ
  | .STRONG_BUY => 2
  | .BUY => 1
  | .NEUTRAL_BULLISH => 1/2
  | .HOLD => 0
  | .NEUTRAL_BEARISH => -(1/2)
  | .SELL => -1
  | .STRONG_SELL => -2
  | .UNKNOWN => 0

/-- The fields of a technical-analysis result dict that `_combine_signals`
reads: the `success` flag, `overall_signal.signal` (with the `'UNKNOWN'`
default already applied) and `overall_signal.confidence` (default 0). -/
structure TechnicalResult where
  success : Bool
  overall_signal : SGSignal
  confidence : ℚ

/-- The fields of a news-analysis result dict that `_combine_signals`
reads: `success`, the truthiness of `news_result.get('sentiment')`,
`sentiment.sentiment_score` (default 0) and `sentiment.confidence`
(default 0). -/
structure NewsResult where
  success : Bool
  has_sentiment : Bool
  sentiment_score : ℚ
  confidence : ℚ

/-- The parts of `_combine_signals`' result dict under verification: the
two component scores/confidences (`components.*.score/confidence`), the
raw `combined_score` / `combined_confidence` (the dict stores them rounded
to 2 decimals; every value checked below is already exact at 2 decimals)
and the `combined_signal.signal` label. -/
structure CombinedSignal where
  technical_score : ℚ
  technical_confidence : ℚ
  news_score : ℚ
  news_confidence : ℚ
  combined_score : ℚ
  combined_confidence : ℚ
  signal : SGSignal
deriving DecidableEq

/-- `self.weights['technical']` of `SignalGenerator`. -/
def weight_technical : ℚ := 6/10

/-- `self.weights['news']` of `SignalGenerator`. -/
def weight_news : ℚ := 4/10

/-- `_combine_signals(ticker, technical_result, news_result)` of
`SignalGenerator` (`src/signal_generator.py`): maps the technical label
through `signal_values`, scales the sentiment score by 2 (`[-1,1]` to
`[-2,2]`), combines both with the 0.6/0.4 weights, and re-derives the
label with the `≥1.2 / ≥0.4 / ≤-1.2 / ≤-0.4` thresholds.  An absent
(`None`), unsuccessful, or sentiment-less input contributes score 0 and
confidence 0. -/
def combine_signals (technical_result : Option TechnicalResult)
    (news_result : Option NewsResult) : CombinedSignal :=
  let technical_score : ℚ :=
    match technical_result with
    | some t => if t.success then signal_values t.overall_signal else 0
    | none => 0
  let technical_confidence : ℚ :=
    match technical_result with
    | some t => if t.success then t.confidence else 0
    | none => 0
  let news_score : ℚ :=
    match news_result with
    | some n => if n.success && n.has_sentiment then n.sentiment_score * 2 else 0
    | none => 0
  let news_confidence : ℚ :=
    match news_result with
    | some n => if n.success && n.has_sentiment then n.confidence else 0
    | none => 0
  let combined_score : ℚ :=
    technical_score * weight_technical + news_score * weight_news
  let combined_confidence : ℚ :=
    technical_confidence * weight_technical + news_confidence * weight_news
  let signal : SGSignal :=
    if combined_score ≥ 12/10 then .STRONG_BUY
    else if combined_score ≥ 4/10 then .BUY
    else if combined_score ≤ -(12/10) then .STRONG_SELL
    else if combined_score ≤ -(4/10) then .SELL
    else .HOLD
  { technical_score := technical_score,
    technical_confidence := technical_confidence,
    news_score := news_score,
    news_confidence := news_confidence,
    combined_score := combined_score,
    combined_confidence := combined_confidence,
    signal := signal }

/-- A technical input `_combine_signals` treats as missing: `None` or an
unsuccessful result. -/
def techAbsent : Option TechnicalResult → Prop
  | none => True
  | some t => t.success = false

/-- A news input `_combine_signals` treats as missing: `None`, an
unsuccessful result, or a result without a `sentiment` payload. -/
def newsAbsent : Option NewsResult → Prop
  | none => True
  | some n => n.success = false ∨ n.has_sentiment = false

/-- The order STRONG_SELL < SELL < HOLD < BUY < STRONG_BUY on the five
technical labels, as a rank in ℕ. -/
def labelRank : TALabel → ℕ
  | .STRONG_SELL => 0
  | .SELL => 1
  | .HOLD => 2
  | .BUY => 3
  | .STRONG_BUY => 4

/-- `Rat.sqrt 0 = 0`: the model of `math.sqrt` agrees with the real square
root at 0. -/
theorem ratSqrt_zero : Rat.sqrt 0 = 0 := by decide

theorem range_one_eq : List.range 1 = [0] := rfl

/-- The SMA of twenty constant prices 100 with period 20 is the single
window mean `[100]`. -/
theorem sma_replicate : calculate_sma (List.replicate 20 (100:ℚ)) 20 = [100] := by
  simp only [calculate_sma, List.length_replicate, List.drop_replicate, List.take_replicate,
    List.sum_replicate]
  norm_num [nsmul_eq_mul, range_one_eq]

/-- C1: the spec's worked example demands `combined_score = 0.2` and label
`BUY` for technical score 1.0 (signal `BUY`) and sentiment score -1.0 with
both confidences 1.0; the code produces neither. -/
theorem C1_combine_example_counterexample :
    (combine_signals (some ⟨true, .BUY, 1⟩) (some ⟨true, true, -1, 1⟩)).combined_score ≠ 2/10 ∧
    (combine_signals (some ⟨true, .BUY, 1⟩) (some ⟨true, true, -1, 1⟩)).signal ≠ .BUY := by
  refine ⟨by norm_num [combine_signals, signal_values, weight_technical, weight_news], ?_⟩
  norm_num [combine_signals, signal_values, weight_technical, weight_news]
  decide

/-- C1 (amended): for present technical and sentiment inputs the combiner
computes `combined_score = technical_score*0.6 + (sentiment_score*2)*0.4`
(the sentiment score is doubled from the [-1,1] scale to the [-2,2] scale);
for technical input with score 1.0 (signal `BUY`, confidence 1.0) and
sentiment input with score -1.0 (confidence 1.0) it returns
`combined_score = -0.2` and label `HOLD` under the [-2,2]-scale
thresholds. -/
theorem C1_combine_weighted_score (t : TechnicalResult) (n : NewsResult)
    (ht : t.success = true) (hns : n.success = true) (hsent : n.has_sentiment = true) :
    (combine_signals (some t) (some n)).combined_score =
      signal_values t.overall_signal * (6/10) + n.sentiment_score * 2 * (4/10) ∧
    (combine_signals (some ⟨true, .BUY, 1⟩) (some ⟨true, true, -1, 1⟩)).combined_score
      = -(2/10) ∧
    (combine_signals (some ⟨true, .BUY, 1⟩) (some ⟨true, true, -1, 1⟩)).signal = .HOLD := by
  refine ⟨?_, ?_, ?_⟩
  · norm_num [combine_signals, ht, hns, hsent, weight_technical, weight_news]
  · norm_num [combine_signals, signal_values, weight_technical, weight_news]
  · norm_num [combine_signals, signal_values, weight_technical, weight_news]

/-- Witness for C1 (amended) at the concrete inputs of the worked
example. -/
theorem C1_combine_weighted_score_witness :
    (combine_signals (some ⟨true, .BUY, 1⟩) (some ⟨true, true, -1, 1⟩)).combined_score =
      signal_values .BUY * (6/10) + (-1 : ℚ) * 2 * (4/10) :=
  (C1_combine_weighted_score ⟨true, .BUY, 1⟩ ⟨true, true, -1, 1⟩ rfl rfl rfl).1

/-- C2: an absent (None/unsuccessful) technical input contributes score 0
and confidence 0; an absent (None/unsuccessful/sentiment-less) news input
contributes score 0 and confidence 0; with both inputs absent the combined
score is 0 and the label is HOLD.  The combiner is a total function, so a
well-formed signal is always returned. -/
theorem C2_combine_fails_soft (t : Option TechnicalResult) (n : Option NewsResult) :
    (techAbsent t →
      (combine_signals t n).technical_score = 0 ∧
        (combine_signals t n).technical_confidence = 0) ∧
    (newsAbsent n →
      (combine_signals t n).news_score = 0 ∧
        (combine_signals t n).news_confidence = 0) ∧
    (techAbsent t → newsAbsent n →
      (combine_signals t n).combined_score = 0 ∧
        (combine_signals t n).signal = .HOLD) := by
  refine ⟨?_, ?_, ?_⟩
  · intro ht
    obtain _ | t := t
    · constructor <;> simp [combine_signals]
    · have h : t.success = false := ht
      constructor <;> simp [combine_signals, h]
  · intro hn
    obtain _ | n := n
    · constructor <;> simp [combine_signals]
    · rcases hn with h | h <;> constructor <;> simp [combine_signals, h]
  · intro ht hn
    obtain _ | t := t <;> obtain _ | n := n
    · constructor <;> norm_num [combine_signals]
    · rcases hn with h | h <;> constructor <;> norm_num [combine_signals, h]
    · have h : t.success = false := ht
      constructor <;> norm_num [combine_signals, h]
    · have h : t.success = false := ht
      rcases hn with h2 | h2 <;> constructor <;> norm_num [combine_signals, h, h2]

/-- Witness for C2 with both inputs `None`. -/
theorem C2_combine_fails_soft_witness :
    (combine_signals none none).combined_score = 0 ∧
      (combine_signals none none).signal = .HOLD :=
  (C2_combine_fails_soft none none).2.2 trivial trivial

/-- C3: `calculate_rsi` returns the neutral 50.0 whenever there are fewer
than `period + 1` prices, and on the `avg_loss == 0` guard returns 100.0
when `avg_gain > 0` and 50.0 otherwise, so `avg_gain / avg_loss` is never
evaluated with a zero `avg_loss`. -/
theorem C3_rsi_guards (prices : List ℚ) (period : ℕ) :
    (prices.length < period + 1 → calculate_rsi prices period = 50) ∧
    (period + 1 ≤ prices.length → rsiAvgLoss prices period = 0 →
      calculate_rsi prices period =
        if rsiAvgGain prices period > 0 then 100 else 50) := by
  constructor
  · intro h
    unfold calculate_rsi
    rw [if_pos h]
  · intro h hz
    unfold calculate_rsi
    rw [if_neg (by omega), if_pos hz]

/-- Witness for C3: on `[1, 2]` with period 1 the average loss is zero and
the average gain is positive, so the RSI is 100. -/
theorem C3_rsi_guards_witness : calculate_rsi [(1:ℚ), 2] 1 = 100 := by
  have h := (C3_rsi_guards [(1:ℚ), 2] 1).2 (by norm_num)
      (by norm_num [rsiAvgLoss, rsiLosses, rsiDeltas])
  rw [h, if_pos (by norm_num [rsiAvgGain, rsiGains, rsiDeltas])]

theorem emaStep_length (m prev : ℚ) (l : List ℚ) :
    (emaStep m prev l).length = l.length := by
  induction l generalizing prev with
  | nil => rfl
  | cons p rest ih => simp [emaStep, ih]

theorem calculate_ema_length (prices : List ℚ) (period : ℕ)
    (h : period ≤ prices.length) :
    (calculate_ema prices period).length = prices.length - period + 1 := by
  unfold calculate_ema
  rw [if_neg (by omega)]
  simp [emaStep_length]

theorem calculate_ema_ne_nil (prices : List ℚ) (period : ℕ)
    (h : period ≤ prices.length) :
    calculate_ema prices period ≠ [] :=
  List.ne_nil_of_length_pos (by rw [calculate_ema_length prices period h]; omega)

theorem macdValues_length (prices : List ℚ) (fast slow : ℕ)
    (h1 : fast ≤ slow) (h2 : slow ≤ prices.length) :
    (macdValues prices fast slow).length = prices.length - slow + 1 := by
  unfold macdValues
  rw [List.length_zipWith, List.length_drop,
    calculate_ema_length prices fast (le_trans h1 h2),
    calculate_ema_length prices slow h2]
  omega

theorem signalValues_length (prices : List ℚ) (fast slow signal : ℕ)
    (h1 : fast ≤ slow) (h2 : slow + signal ≤ prices.length) :
    (signalValues prices fast slow signal).length =
      prices.length - slow - signal + 2 := by
  have hm := macdValues_length prices fast slow h1 (by omega)
  unfold signalValues
  rw [calculate_ema_length _ signal (by rw [hm]; omega), hm]
  omega

/-- C4: with fewer than `slow + signal` prices `calculate_macd` returns
the zero-filled neutral result with trend NEUTRAL; otherwise (for valid
periods `0 < fast ≤ slow`, `0 < signal`, where the Python arithmetic never
raises) the reported histogram is `macd_line - signal_line` and the trend
is BULLISH_CROSSOVER when the current histogram is > 0 with previous
histogram ≤ 0, BEARISH_CROSSOVER when the current is < 0 with previous
≥ 0, and otherwise BULLISH / BEARISH by the sign of the current
histogram. -/
theorem C4_macd_trend_classification (prices : List ℚ) (fast slow signal : ℕ)
    (hf : 0 < fast) (hfs : fast ≤ slow) (hsig : 0 < signal) :
    (prices.length < slow + signal →
      calculate_macd prices fast slow signal = macdNeutral) ∧
    (slow + signal ≤ prices.length →
      (calculate_macd prices fast slow signal).histogram =
          macdHistogram prices fast slow signal ∧
      (macdHistogram prices fast slow signal > 0 ∧
          macdPrevHistogram prices fast slow signal ≤ 0 →
        (calculate_macd prices fast slow signal).trend = .BULLISH_CROSSOVER) ∧
      (macdHistogram prices fast slow signal < 0 ∧
          macdPrevHistogram prices fast slow signal ≥ 0 →
        (calculate_macd prices fast slow signal).trend = .BEARISH_CROSSOVER) ∧
      (macdHistogram prices fast slow signal > 0 ∧
          macdPrevHistogram prices fast slow signal > 0 →
        (calculate_macd prices fast slow signal).trend = .BULLISH) ∧
      (macdHistogram prices fast slow signal < 0 ∧
          macdPrevHistogram prices fast slow signal < 0 →
        (calculate_macd prices fast slow signal).trend = .BEARISH)) := by
  constructor
  · intro h
    unfold calculate_macd
    rw [if_pos h]
  · intro h
    have hsv2 : 2 ≤ (signalValues prices fast slow signal).length := by
      rw [signalValues_length prices fast slow signal hfs h]
      omega
    have hres : calculate_macd prices fast slow signal =
        { macd_line := macdLine prices fast slow,
          signal_line := signalLine prices fast slow signal,
          histogram := macdHistogram prices fast slow signal,
          trend := macdTrendOf prices fast slow signal } := by
      unfold calculate_macd
      rw [if_neg (by omega), if_neg ?hne, if_neg ?hal, if_neg ?hsv]
      case hne =>
        push_neg
        exact ⟨calculate_ema_ne_nil _ _ (by omega), calculate_ema_ne_nil _ _ (by omega)⟩
      case hal =>
        rw [List.length_drop, calculate_ema_length _ _ (by omega : fast ≤ prices.length),
          calculate_ema_length _ _ (by omega : slow ≤ prices.length)]
        omega
      case hsv =>
        exact List.ne_nil_of_length_pos
          (by rw [signalValues_length prices fast slow signal hfs h]; omega)
    rw [hres]
    refine ⟨rfl, ?_, ?_, ?_, ?_⟩ <;> intro hc <;>
      show macdTrendOf prices fast slow signal = _ <;>
      unfold macdTrendOf <;> rw [if_pos hsv2]
    · rw [if_pos hc]
    · rw [if_neg (fun hcc => absurd hcc.1 (lt_asymm hc.1)), if_pos hc]
    · rw [if_neg (fun hcc => absurd hcc.2 (not_le.mpr hc.2)),
        if_neg (fun hcc => absurd hcc.1 (lt_asymm hc.1)), if_pos hc.1]
    · rw [if_neg (fun hcc => absurd hcc.1 (lt_asymm hc.1)),
        if_neg (fun hcc => absurd hcc.2 (not_le.mpr hc.2)), if_neg (lt_asymm hc.1)]

/-- Witness for C4 on `[1, 2, 4, 8]` with `fast=1, slow=2, signal=2`:
the current and previous histograms are 17/54 and 1/6, both positive, so
the trend is BULLISH. -/
theorem C4_macd_trend_classification_witness :
    (calculate_macd [(1:ℚ), 2, 4, 8] 1 2 2).trend = .BULLISH := by
  refine (((C4_macd_trend_classification [(1:ℚ), 2, 4, 8] 1 2 2 (by norm_num)
      (by norm_num) (by norm_num)).2 (by norm_num)).2.2.2.1) ⟨?_, ?_⟩
  · norm_num [macdHistogram, macdLine, signalLine, macdValues, signalValues,
      calculate_ema, emaStep]
  · norm_num [macdPrevHistogram, secondLast, macdValues, signalValues,
      calculate_ema, emaStep]

/-- C5: the technical signal score is in [-1, 1] for every RSI value,
MACD result, price-vs-SMA20/SMA50 relation and Bollinger result, by the
final `max(-1.0, min(1.0, score))` clamp. -/
theorem C5_signal_score_in_range (rsi : ℚ) (macd : MacdResult)
    (price_vs_sma20 price_vs_sma50 : PriceVsMA) (bollinger : BollingerResult) :
    -1 ≤ calculate_signal_score rsi macd price_vs_sma20 price_vs_sma50 bollinger ∧
      calculate_signal_score rsi macd price_vs_sma20 price_vs_sma50 bollinger ≤ 1 :=
  ⟨le_max_left _ _, max_le (by norm_num) (min_le_left _ _)⟩

theorem rsiDeltas_length (prices : List ℚ) :
    (rsiDeltas prices).length = prices.length - 1 := by
  simp [rsiDeltas, List.length_zipWith, List.length_tail]

theorem rsiDeltas_pos (prices : List ℚ) (h : List.Chain' (· < ·) prices) :
    ∀ d ∈ rsiDeltas prices, 0 < d := by
  induction prices with
  | nil => intro d hd; simp [rsiDeltas] at hd
  | cons a l ih =>
    cases l with
    | nil => intro d hd; simp [rsiDeltas] at hd
    | cons b m =>
      rw [List.chain'_cons] at h
      intro d hd
      have he : rsiDeltas (a :: b :: m) = (b - a) :: rsiDeltas (b :: m) := rfl
      rw [he] at hd
      rcases List.mem_cons.mp hd with h1 | h1
      · rw [h1]; linarith [h.1]
      · exact ih h.2 d h1

theorem rsiDeltas_neg (prices : List ℚ) (h : List.Chain' (· > ·) prices) :
    ∀ d ∈ rsiDeltas prices, d < 0 := by
  induction prices with
  | nil => intro d hd; simp [rsiDeltas] at hd
  | cons a l ih =>
    cases l with
    | nil => intro d hd; simp [rsiDeltas] at hd
    | cons b m =>
      rw [List.chain'_cons] at h
      intro d hd
      have he : rsiDeltas (a :: b :: m) = (b - a) :: rsiDeltas (b :: m) := rfl
      rw [he] at hd
      rcases List.mem_cons.mp hd with h1 | h1
      · rw [h1]; have := h.1; simp only [gt_iff_lt] at this; linarith
      · exact ih h.2 d h1

theorem rsiAvgLoss_incr_zero (prices : List ℚ) (period : ℕ)
    (h : List.Chain' (· < ·) prices) : rsiAvgLoss prices period = 0 := by
  unfold rsiAvgLoss
  rw [List.sum_eq_zero, zero_div]
  intro x hx
  have hx2 := List.mem_of_mem_drop hx
  unfold rsiLosses at hx2
  rcases List.mem_map.mp hx2 with ⟨d, hd, hfd⟩
  have hdpos := rsiDeltas_pos prices h d hd
  rw [← hfd, if_neg (by linarith)]

theorem rsiAvgGain_decr_zero (prices : List ℚ) (period : ℕ)
    (h : List.Chain' (· > ·) prices) : rsiAvgGain prices period = 0 := by
  unfold rsiAvgGain
  rw [List.sum_eq_zero, zero_div]
  intro x hx
  have hx2 := List.mem_of_mem_drop hx
  unfold rsiGains at hx2
  rcases List.mem_map.mp hx2 with ⟨d, hd, hfd⟩
  have hdneg := rsiDeltas_neg prices h d hd
  rw [← hfd, if_neg (by linarith)]

theorem rsiAvgGain_incr_pos (prices : List ℚ) (period : ℕ)
    (h : List.Chain' (· < ·) prices) (hp : 0 < period)
    (hlen : period + 1 ≤ prices.length) : 0 < rsiAvgGain prices period := by
  unfold rsiAvgGain
  apply div_pos
  · apply List.sum_pos
    · intro x hx
      have hx2 := List.mem_of_mem_drop hx
      unfold rsiGains at hx2
      rcases List.mem_map.mp hx2 with ⟨d, hd, hfd⟩
      have hdpos := rsiDeltas_pos prices h d hd
      rw [← hfd, if_pos hdpos]
      exact hdpos
    · apply List.ne_nil_of_length_pos
      rw [List.length_drop]
      have hg : (rsiGains prices).length = prices.length - 1 := by
        unfold rsiGains
        rw [List.length_map, rsiDeltas_length]
      omega
  · exact_mod_cast hp

theorem rsiAvgLoss_decr_pos (prices : List ℚ) (period : ℕ)
    (h : List.Chain' (· > ·) prices) (hp : 0 < period)
    (hlen : period + 1 ≤ prices.length) : 0 < rsiAvgLoss prices period := by
  unfold rsiAvgLoss
  apply div_pos
  · apply List.sum_pos
    · intro x hx
      have hx2 := List.mem_of_mem_drop hx
      unfold rsiLosses at hx2
      rcases List.mem_map.mp hx2 with ⟨d, hd, hfd⟩
      have hdneg := rsiDeltas_neg prices h d hd
      rw [← hfd, if_pos hdneg]
      linarith
    · apply List.ne_nil_of_length_pos
      rw [List.length_drop]
      have hg : (rsiLosses prices).length = prices.length - 1 := by
        unfold rsiLosses
        rw [List.length_map, rsiDeltas_length]
      omega
  · exact_mod_cast hp

/-- C6: on a strictly increasing price list of length at least 15 the
RSI with period 14 exceeds 50 (the average loss is zero and the average
gain positive, so the guard returns 100), and on a strictly decreasing
list it is below 50 (zero average gain against a positive average loss
gives RSI 0). -/
theorem C6_rsi_monotone_series (prices : List ℚ) (h15 : 15 ≤ prices.length) :
    (List.Chain' (· < ·) prices → 50 < calculate_rsi prices 14) ∧
    (List.Chain' (· > ·) prices → calculate_rsi prices 14 < 50) := by
  constructor
  · intro hc
    unfold calculate_rsi
    rw [if_neg (by omega), if_pos (rsiAvgLoss_incr_zero prices 14 hc),
      if_pos (rsiAvgGain_incr_pos prices 14 hc (by norm_num) (by omega))]
    norm_num
  · intro hc
    have hlp := rsiAvgLoss_decr_pos prices 14 hc (by norm_num) (by omega)
    unfold calculate_rsi
    rw [if_neg (by omega), if_neg (ne_of_gt hlp),
      rsiAvgGain_decr_zero prices 14 hc, zero_div]
    norm_num [min_def, max_def]

/-- Witness for C6 on the strictly increasing list 1..15 and the strictly
decreasing list 15..1. -/
theorem C6_rsi_monotone_series_witness :
    50 < calculate_rsi [(1:ℚ),2,3,4,5,6,7,8,9,10,11,12,13,14,15] 14 ∧
    calculate_rsi [(15:ℚ),14,13,12,11,10,9,8,7,6,5,4,3,2,1] 14 < 50 :=
  ⟨(C6_rsi_monotone_series _ (by norm_num)).1 (by norm_num [List.chain'_cons]),
   (C6_rsi_monotone_series _ (by norm_num)).2 (by norm_num [List.chain'_cons])⟩

/-- C7: the score-to-label map is monotonic non-decreasing for the order
STRONG_SELL < SELL < HOLD < BUY < STRONG_BUY. -/
theorem C7_label_monotone (a b : ℚ) (hab : a ≤ b) :
    labelRank (get_signal_label a) ≤ labelRank (get_signal_label b) := by
  unfold get_signal_label
  split_ifs <;> first | decide | (exfalso; linarith)

/-- Witness for C7 at the concrete scores 0 ≤ 1. -/
theorem C7_label_monotone_witness :
    labelRank (get_signal_label 0) ≤ labelRank (get_signal_label 1) :=
  C7_label_monotone 0 1 (by norm_num)

/-- C8: on twenty constant prices 100 with period 20 the Bollinger bands
have zero bandwidth and the position is LOWER_HALF, because the price
equals the middle band and fails the strict `current_price > middle_band`
test. -/
theorem C8_bollinger_constant_prices :
    (calculate_bollinger_bands (List.replicate 20 100) 20 2).bandwidth = 0 ∧
    (calculate_bollinger_bands (List.replicate 20 100) 20 2).position = .LOWER_HALF := by
  simp only [calculate_bollinger_bands, List.length_replicate, sma_replicate,
    List.drop_replicate, List.map_replicate, List.sum_replicate,
    List.getLastD_eq_getLast?, List.getLast?_replicate]
  norm_num [nsmul_eq_mul, ratSqrt_zero]

/-- C9: with fewer prices than the period, `calculate_sma` and
`calculate_ema` both return the empty list. -/
theorem C9_short_input_empty (s : List ℚ) (p : ℕ) (h : s.length < p) :
    calculate_sma s p = [] ∧ calculate_ema s p = [] := by
  constructor
  · unfold calculate_sma; rw [if_pos h]
  · unfold calculate_ema; rw [if_pos h]

/-- Witness for C9 on a one-element list with period 2. -/
theorem C9_short_input_empty_witness :
    calculate_sma [(1:ℚ)] 2 = [] ∧ calculate_ema [(1:ℚ)] 2 = [] :=
  C9_short_input_empty [(1:ℚ)] 2 (by norm_num)

/-- C10: `_calculate_confidence` always returns a value in [0.5, 1.0]:
only non-negative bonuses are added to the 0.5 base and the result is
capped at 1.0. -/
theorem C10_confidence_range (rsi : ℚ) (macd : MacdResult) (data_points : ℕ) :
    1/2 ≤ calculate_confidence rsi macd data_points ∧
      calculate_confidence rsi macd data_points ≤ 1 := by
  unfold calculate_confidence
  constructor
  · refine le_min (by norm_num) ?_
    split_ifs <;> norm_num
  · exact min_le_left _ _

end TradingBot
